import Mathlib

/-!
Verification development for the SeismoX waveform-processing core.

The Python sources (`app/pipeline.py`, `app/iris_stream.py`, `app/storage.py`,
`app/models.py`, `app/pickers/__init__.py`) are shallowly embedded below:

* `datetime` values become rational numbers of seconds (`ℚ`); adding a
  `timedelta(seconds = s)` becomes `(· + s)`.  Python `datetime` objects are
  always truthy, so `x or y` applied to a datetime that is present always
  yields `x`; the corresponding dead branches of the source are noted where
  they occur.
* Sample values (`float`) become `ℚ`; the pipeline never does arithmetic on
  sample values, only list slicing, so this is a faithful structural model.
* Python dicts that are used as keyed maps (`_station_buffers`, the per-station
  `channels` dict) become insertion-ordered association lists; `setdefault`
  appends at the end exactly as a Python dict does.
* `random.uniform a b` is modelled as `a + (b - a) * u` where `u` is the next
  draw of an abstract entropy stream `ℕ → ℚ`; `random.choice` picks the item
  indexed by such a draw; `random.gauss mu sigma` is `mu + sigma * z` for a
  stream draw `z` (the Gaussian shaping itself is irrelevant to every claim).
* Fallible code (an SQLAlchemy `.one()` on a missing row, `min` of an empty
  sequence) is modelled with `Except`.
-/

namespace SeismoX

/-- Python `int()` on a rational: truncation toward zero. -/
def pyInt (q : ℚ) : Int := if 0 ≤ q then ⌊q⌋ else ⌈q⌉

/-- Python `random.uniform a b`, given one unit-interval entropy draw `u`:
`a + (b - a) * u`. -/
def pyUniform (a b u : ℚ) : ℚ := a + (b - a) * u

/-- Python `random.choice` on a list of strings, given one unit-interval
entropy draw `u`: the element at index `int(u * len)`. -/
def pyChoice (l : List String) (u : ℚ) : String :=
  l.getD (pyInt (u * l.length)).toNat ""

/-- Python `round(q, 2)` (bankers' rounding of `q * 100`, divided by 100). -/
def pyRound2 (q : ℚ) : ℚ :=
  let n : ℚ := q * 100
  let r : Int := if (n - ⌊n⌋ : ℚ) = 1 / 2 then (if Even ⌊n⌋ then ⌊n⌋ else ⌊n⌋ + 1) else round n
  (r : ℚ) / 100

/-- Python `random.gauss mu sigma`, with the normal shaping abstracted into a
single entropy draw `z`: `mu + sigma * z`. -/
def pyGauss (mu sigma z : ℚ) : ℚ := mu + sigma * z

/-- An abstract entropy stream feeding the `random` module: draw `n` is the
`n`-th value produced.  Uniform draws are unit-interval values. -/
abbrev Entropy := ℕ → ℚ

/-- Python string comparison: strict code-point lexicographic order on the
character sequences. -/
def pyStrLtChars : List Char → List Char → Bool
  | [], [] => false
  | [], _ :: _ => true
  | _ :: _, [] => false
  | a :: as, b :: bs =>
    if a.val < b.val then true
    else if b.val < a.val then false
    else pyStrLtChars as bs

/-- Python `a <= b` on strings. -/
def pyStrLe (a b : String) : Bool := !pyStrLtChars b.data a.data

/-- Python `sorted` on strings (code-point lexicographic, stable); modelled by
insertion sort, which computes the same sorted list. -/
def insertSorted (a : String) : List String → List String
  | [] => [a]
  | b :: l => if pyStrLe a b then a :: b :: l else b :: insertSorted a l

/-- Python `sorted(keys)`. -/
def pySorted (l : List String) : List String := l.foldr insertSorted []

/-! ## Data model (`app/models.py`, `app/pipeline.py` dataclass) -/

/-- `ProcessingRequest` dataclass (`pipeline.py` lines 19-28). -/
structure ProcessingRequest where
  waveform_id : Nat
  station_id : Nat
  file_path : String
  received_at : ℚ
  start_time : Option ℚ := none
  samples : Option (List ℚ) := none
  sampling_rate : Option ℚ := none
  channel : Option String := none
deriving DecidableEq

/-- `PhasePick` row (`models.py` lines 44-57); the database row id is not
modelled, the pick's own fields are. -/
structure PhasePick where
  station_id : Nat
  event_id : Option Nat := none
  phase_type : String
  pick_time : ℚ
  quality : ℚ
  initial_motion : Option String := none
  earthquake_type : Option String := none
deriving DecidableEq

/-- `Station` row (`models.py` lines 11-25). -/
structure Station where
  id : Nat
  code : String
  name : String
  latitude : ℚ
  longitude : ℚ
  elevation_m : ℚ := 0
  is_active : Bool := true
  status : String := "healthy"
deriving DecidableEq

/-- `Waveform` row (`models.py` lines 32-41). -/
structure Waveform where
  id : Nat
  station_id : Nat
  file_path : String
  received_at : ℚ
  processed : Bool := false
deriving DecidableEq

/-- `Event` row (`models.py` lines 60-73). -/
structure Event where
  id : Nat
  origin_time : ℚ
  latitude : ℚ
  longitude : ℚ
  depth_km : ℚ := 10
  magnitude : ℚ := 0
  event_type : String := "earthquake"
  preferred_station_id : Option Nat := none
deriving DecidableEq

/-- The relational store behind the persistence boundary, with autoincrement
counters for the primary keys the pipeline reads back. -/
structure DB where
  stations : List Station := []
  waveforms : List Waveform := []
  events : List Event := []
  picks : List PhasePick := []
  nextStationId : Nat := 1
  nextWaveformId : Nat := 1
  nextEventId : Nat := 1
deriving DecidableEq

/-! ## Channel buffers (`pipeline.py` `_station_buffers`) -/

/-- One per-channel buffer entry (`pipeline.py` lines 81-88).  The
`start_time` key always holds a datetime once the entry exists (datetimes are
always truthy, so the `or` fallbacks at lines 92-93, 113 and 138 always take
their left operand); it is therefore modelled as a plain `ℚ`. -/
structure ChanBuf where
  start_time : ℚ
  sampling_rate : ℚ
  samples : List ℚ
deriving DecidableEq

/-- The `channels` dict of one station's buffer: insertion-ordered map from
channel name to buffer. -/
abbrev Channels := List (String × ChanBuf)

/-- `_station_buffers`: insertion-ordered map from station id to its
`channels` map (the wrapper dict holds only the one `"channels"` key). -/
abbrev StationBuffers := List (Nat × Channels)

/-- `int(request.sampling_rate * 10)` (`pipeline.py` line 99): the fixed
10-second window length in samples.  (For the degenerate non-positive rates
the Python loop at lines 100-138 never terminates; every claim concerns
positive rates, where this equals the Python value.) -/
def blockLenOf (rate : ℚ) : Nat := (pyInt (rate * 10)).toNat

/-! ## Simulation fallback (`pipeline.py` `_simulate_phase_picks`) -/

/-- The fixed phase label set (`pipeline.py` lines 162, 184). -/
def phase_types : List String := ["Pg", "Sg", "Pn", "Sn"]

/-- One iteration of the `for phase in phase_types` loop of
`_simulate_phase_picks` (`pipeline.py` lines 186-198), consuming four entropy
draws (offset, quality, initial motion choice, earthquake-type choice). -/
def simulateLoop (rng : Entropy) (req : ProcessingRequest) (base : ℚ) :
    List String → Nat → List PhasePick × Nat
  | [], ix => ([], ix)
  | ph :: rest, ix =>
    let offset_seconds := pyUniform (1/2) 6 (rng ix)
    let p : PhasePick :=
      { station_id := req.station_id
        phase_type := ph
        pick_time := base + offset_seconds
        quality := pyUniform (7/10) (99/100) (rng (ix + 1))
        initial_motion := some (pyChoice ["up", "down"] (rng (ix + 2)))
        earthquake_type := some (pyChoice ["tectonic", "explosion", "volcanic"] (rng (ix + 3))) }
    let next := simulateLoop rng req base rest (ix + 4)
    (p :: next.1, next.2)

/-- `_simulate_phase_picks` (`pipeline.py` lines 183-199).  `base_time` is a
datetime when present, hence always truthy: `base_time or request.received_at`
is `Option.getD`. -/
def simulate_phase_picks (rng : Entropy) (ix : Nat) (req : ProcessingRequest)
    (base_time : Option ℚ := none) : List PhasePick × Nat :=
  simulateLoop rng req (base_time.getD req.received_at) phase_types ix

/-! ## Picker output conversion (`pipeline.py` `_convert_picker_results`) -/

/-- One raw detection row `(phase_index, sample_index, confidence)` as
returned by `run_phase_picker`; the phase index may be `None`. -/
abbrev PickerRow := Option Int × ℚ × ℚ

/-- The detection adapter seen from the pipeline: `run_phase_picker` on a
window matrix and sampling rate.  The model artifact is external to the
pipeline, so the adapter is a parameter of the embedding; the shipped
deployment without a model file always returns `[]`. -/
abbrev Picker := List (List ℚ) → ℚ → List PickerRow

/-- `_convert_picker_results` (`pipeline.py` lines 155-180). -/
def convert_picker_results (rows : List PickerRow) (station_id : Nat)
    (sampling_rate : ℚ) (start_time : ℚ) : List PhasePick :=
  rows.filterMap fun row =>
    match row.1 with
    | none => none
    | some phase_idx =>
      let label :=
        if 0 ≤ phase_idx ∧ phase_idx < 4 then phase_types.getD phase_idx.toNat ""
        else "phase" ++ toString phase_idx
      some
        { station_id := station_id
          phase_type := label
          pick_time := start_time + row.2.1 / sampling_rate
          quality := row.2.2
          initial_motion := none
          earthquake_type := none }

/-! ## The window-slicing loop (`pipeline.py` `_buffer_and_pick`, lines 98-139) -/

/-- `min(len(buf["samples"]) for buf in channels.values())` (line 103);
only evaluated when `channels` is non-empty. -/
def minLen (ch : Channels) : Nat :=
  match ch.map (fun kv => kv.2.samples.length) with
  | [] => 0
  | n :: ns => ns.foldl Nat.min n

/-- `min` of a non-empty list of rationals (line 120); only evaluated on
non-empty lists. -/
def minQ (l : List ℚ) : ℚ :=
  match l with
  | [] => 0
  | q :: qs => qs.foldl min q

/-- `sorted(channels.keys())[:3]` (line 108). -/
def selectedNames (ch : Channels) : List String :=
  (pySorted (ch.map Prod.fst)).take 3

/-- `channels[name]` for a name drawn from `channels.keys()` (lines 112, 136);
the default is never reached. -/
def getCh (ch : Channels) (name : String) : ChanBuf :=
  (List.lookup name ch).getD { start_time := 0, sampling_rate := 0, samples := [] }

/-- The `start_times` list (line 113).  `buf.get("start_time")` is a datetime,
hence truthy, so the `or request.received_at` branch is dead. -/
def startTimes (ch : Channels) (sel : List String) : List ℚ :=
  sel.map fun name => (getCh ch name).start_time

/-- The `sample_matrix` rows before padding (line 114). -/
def windowMatrix (ch : Channels) (b : Nat) (sel : List String) : List (List ℚ) :=
  sel.map fun name => (getCh ch name).samples.take b

/-- The padding loop (lines 117-118): append copies of `sample_matrix[0]`
until there are three rows. -/
def padTo3 (m : List (List ℚ)) : List (List ℚ) :=
  m ++ List.replicate (3 - m.length) (m.headD [])

/-- The per-iteration buffer update (lines 134-138): every selected channel
drops the processed block from the front of its samples and advances its
start time by exactly the 10-second window duration; keys and order of the
`channels` dict are unchanged. -/
def advanceChannels (b : Nat) (sel : List String) (ch : Channels) : Channels :=
  ch.map fun kv =>
    (kv.1,
      if kv.1 ∈ sel then
        { kv.2 with samples := kv.2.samples.drop b, start_time := kv.2.start_time + 10 }
      else kv.2)

/-- One window slice as handed to the detection adapter: its tagged start time
(line 120) and padded three-row sample matrix (lines 109-118). -/
structure SliceEvent where
  start_time : ℚ
  matrix : List (List ℚ)
deriving DecidableEq

/-- The `while True` loop of `_buffer_and_pick` (lines 100-138), with explicit
fuel.  Returns the picks accumulated (lines 121-132), the trace of window
slices handed to the picker, the final `channels` state, and the entropy
index after the simulation fallbacks.  The caller supplies fuel exceeding the
possible number of iterations (each iteration removes `b ≥ 1` samples from
the first selected channel, so the total sample count bounds it). -/
def sliceLoop (picker : Picker) (rng : Entropy) (req : ProcessingRequest)
    (b : Nat) (r : ℚ) :
    Nat → Channels → Nat → List PhasePick × List SliceEvent × Channels × Nat
  | 0, ch, ix => ([], [], ch, ix)
  | fuel + 1, ch, ix =>
    if ch = [] then ([], [], ch, ix)
    else if minLen ch < b then ([], [], ch, ix)
    else
      let sel := selectedNames ch
      let mat := padTo3 (windowMatrix ch b sel)
      let st := minQ (startTimes ch sel)
      let results := picker mat r
      let stage :=
        if results = [] then simulate_phase_picks rng ix req (some st)
        else (convert_picker_results results req.station_id r st, ix)
      let next := sliceLoop picker rng req b r fuel (advanceChannels b sel ch) stage.2
      (stage.1 ++ next.1, ⟨st, mat⟩ :: next.2.1, next.2.2)

/-- `_station_buffers.setdefault(request.station_id, ...)["channels"]`
(lines 73-80). -/
def getStation (bufs : StationBuffers) (sid : Nat) : Channels :=
  (List.lookup sid bufs).getD []

/-- Write back one station's `channels` map, preserving every other
station's entry (a Python dict mutation in place). -/
def updateStation (bufs : StationBuffers) (sid : Nat) (ch : Channels) : StationBuffers :=
  if (List.lookup sid bufs).isSome then
    bufs.map fun kv => if kv.1 = sid then (sid, ch) else kv
  else bufs ++ [(sid, ch)]

/-- `request.channel or "UNK"` (line 82): `None` and the empty string are
falsy. -/
def chanKey : Option String → String
  | none => "UNK"
  | some c => if c = "" then "UNK" else c

/-- Python truthiness of `request.samples` (`None` or `[]` is falsy). -/
def truthySamples : Option (List ℚ) → Bool
  | none => false
  | some l => !l.isEmpty

/-- Python truthiness of `request.sampling_rate` (`None` or `0.0` is falsy). -/
def truthyRate : Option ℚ → Bool
  | none => false
  | some q => decide (q ≠ 0)

/-- Total pending samples across a station's channels; used to supply the
slicing loop with sufficient fuel. -/
def totalLen (ch : Channels) : Nat :=
  (ch.map fun kv => kv.2.samples.length).sum

/-- `_buffer_and_pick` (`pipeline.py` lines 67-140).  Returns the picks, the
trace of sliced windows, the updated `_station_buffers`, and the entropy
index. -/
def buffer_and_pick (picker : Picker) (rng : Entropy) (req : ProcessingRequest)
    (bufs : StationBuffers) (ix : Nat) :
    List PhasePick × List SliceEvent × StationBuffers × Nat :=
  if ¬ truthySamples req.samples ∨ ¬ truthyRate req.sampling_rate then
    let sim := simulate_phase_picks rng ix req none
    (sim.1, [], bufs, sim.2)
  else
    let s := req.samples.getD []
    let r := req.sampling_rate.getD 0
    let chans0 := getStation bufs req.station_id
    let key := chanKey req.channel
    -- lines 81-88: channels.setdefault(key, fresh buffer seeded from the
    -- request's start time or received time)
    let chans1 :=
      if (List.lookup key chans0).isSome then chans0
      else chans0 ++ [(key, { start_time := req.start_time.getD req.received_at,
                              sampling_rate := r, samples := [] })]
    -- line 91 resets the sampling rate; lines 92-93 are dead (datetimes are
    -- truthy); line 95 appends the incoming samples
    let chans2 := chans1.map fun kv =>
      if kv.1 = key then (kv.1, { kv.2 with sampling_rate := r, samples := kv.2.samples ++ s })
      else kv
    let b := blockLenOf r
    let out := sliceLoop picker rng req b r (totalLen chans2 + 1) chans2 ix
    (out.1, out.2.1, updateStation bufs req.station_id out.2.2.1, out.2.2.2)

/-- A sequence of `_buffer_and_pick` calls as issued one at a time by the
single pipeline worker, accumulating picks and window slices. -/
def runCalls (picker : Picker) (rng : Entropy) :
    List ProcessingRequest → StationBuffers → Nat →
    List PhasePick × List SliceEvent × StationBuffers × Nat
  | [], bufs, ix => ([], [], bufs, ix)
  | req :: rest, bufs, ix =>
    let out := buffer_and_pick picker rng req bufs ix
    let next := runCalls picker rng rest out.2.2.1 out.2.2.2
    (out.1 ++ next.1, out.2.1 ++ next.2.1, next.2.2)

/-! ## Event association and persistence (`pipeline.py` lines 202-239) -/

/-- `_associate_event` (`pipeline.py` lines 202-222).  The
`session.exec(select(Station).where(Station.id == station_id)).one()` call
raises `NoResultFound` when the station is absent, and `min` raises
`ValueError` on an empty pick batch; both are modelled as `Except.error`.
On success the new event is appended to the events table and returned with
its autoincrement id. -/
def associate_event (rng : Entropy) (ix : Nat) (db : DB) (station_id : Nat)
    (picks : List PhasePick) : Except String (Event × DB × Nat) :=
  match db.stations.find? fun s => s.id = station_id with
  | none => .error "NoResultFound"
  | some station =>
    match picks.map (fun p => p.pick_time) with
    | [] => .error "ValueError"
    | t :: ts =>
      let origin_time := ts.foldl min t
      let event : Event :=
        { id := db.nextEventId
          origin_time := origin_time
          latitude := station.latitude + pyUniform (-(1/20)) (1/20) (rng ix)
          longitude := station.longitude + pyUniform (-(1/20)) (1/20) (rng (ix + 1))
          depth_km := |pyGauss 10 4 (rng (ix + 2))|
          magnitude := pyRound2 (pyUniform (3/2) (9/2) (rng (ix + 3)))
          event_type := "earthquake"
          preferred_station_id := some station.id }
      .ok (event, { db with events := db.events ++ [event], nextEventId := db.nextEventId + 1 }, ix + 4)

/-- `_attach_picks_to_event` (`pipeline.py` lines 225-230): every pick of the
batch is stored with its `event_id` set to the new event's id. -/
def attach_picks_to_event (db : DB) (event_id : Nat) (picks : List PhasePick) : DB :=
  { db with picks := db.picks ++ picks.map fun p => { p with event_id := some event_id } }

/-- `_update_waveform_processed` (`pipeline.py` lines 233-239):
`session.get(Waveform, waveform_id)` marks the row processed when it exists
and is a no-op when it does not. -/
def update_waveform_processed (db : DB) (waveform_id : Nat) : DB :=
  { db with waveforms := db.waveforms.map fun w =>
      if w.id = waveform_id then { w with processed := true } else w }

/-- `_handle_request` (`pipeline.py` lines 55-64).
`_notify_pick_listeners` (lines 143-152) only invokes external listeners and
swallows their exceptions, so it does not affect the modelled state.  The
function returns the database, buffer map and entropy index, or the
exception escaping it. -/
def handle_request (picker : Picker) (rng : Entropy) (req : ProcessingRequest)
    (db : DB) (bufs : StationBuffers) (ix : Nat) :
    Except String (DB × StationBuffers × Nat) :=
  let out := buffer_and_pick picker rng req bufs ix
  if out.1 = [] then
    .ok (update_waveform_processed db req.waveform_id, out.2.2.1, out.2.2.2)
  else
    match associate_event rng out.2.2.2 db req.station_id out.1 with
    | .error e => .error e
    | .ok (event, db1, ix1) =>
      let db2 := attach_picks_to_event db1 event.id out.1
      .ok (update_waveform_processed db2 req.waveform_id, out.2.2.1, ix1)

/-- Outcome of running the pipeline worker coroutine over a finite snapshot
of the queue: the final state, the exception (if any) that escaped
`_handle_request` and terminated the worker, and the queued requests that
were consequently never dequeued. -/
structure WorkerRun where
  db : DB
  bufs : StationBuffers
  ix : Nat
  crashed : Option String
  remaining : List ProcessingRequest
deriving DecidableEq

/-- `process_waveforms` (`pipeline.py` lines 46-52) over a finite queue
snapshot.  The loop body is `try: await _handle_request(request) finally:
waveform_queue.task_done()` — there is no `except` clause, so an exception
raised while handling one request runs `task_done` and then propagates out of
the `while True` loop, terminating the worker coroutine; the remaining queued
requests are never dequeued. -/
def process_waveforms (picker : Picker) (rng : Entropy) :
    List ProcessingRequest → DB → StationBuffers → Nat → WorkerRun
  | [], db, bufs, ix => ⟨db, bufs, ix, none, []⟩
  | req :: rest, db, bufs, ix =>
    match handle_request picker rng req db bufs ix with
    | .ok (db1, bufs1, ix1) => process_waveforms picker rng rest db1 bufs1 ix1
    | .error e => ⟨db, bufs, ix, some e, rest⟩

/-! ## Stream bridge (`app/iris_stream.py`) -/

/-- The `_status` dict (`iris_stream.py` lines 28-37). -/
structure StreamStatus where
  running : Bool := false
  frames : Nat := 0
  network : Option String := none
  station : Option String := none
  location : Option String := none
  channel : Option String := none
  last_frame : Option String := none
  error : Option String := none
deriving DecidableEq

/-- The bridge's module state relevant to its lifecycle: the status dict and
the `_stop_event` flag.  (The spawned tasks themselves live outside this
state model.) -/
structure StreamState where
  status : StreamStatus := {}
  stopEvent : Bool := false
deriving DecidableEq

/-- `start_live_stream` (`iris_stream.py` lines 40-65): a no-op returning
`False` when already running; otherwise clears the stop event, updates the
status dict with the keys listed at lines 51-61 (`running`, `frames`,
the four source selectors, `error` — and no others), launches the pump and
relay tasks, and returns `True`. -/
def start_live_stream (network station location channel : String)
    (st : StreamState) : Bool × StreamState :=
  if st.status.running then (false, st)
  else
    (true,
      { st with
        stopEvent := false
        status :=
          { st.status with
            running := true
            frames := 0
            network := some network
            station := some station
            location := some location
            channel := some channel
            error := none } })

/-- A decoded trace delivered by the streaming source (the `obspy` trace's
stats and data as the bridge reads them). -/
structure TraceData where
  network : String
  station : String
  channel : String
  starttime : ℚ
  sampling_rate : ℚ
  data : List ℚ
deriving DecidableEq

/-- Modelled from the spec: `persist_waveform_bytes` is imported by
`iris_stream.py` (line 18) from `app.storage`, but its definition is missing
from the sources (`storage.py` only defines the base64 variant
`persist_waveform`).  Per the spec, the raw-bytes store operation is
`persist(stationCode, bytes) -> (path, timestamp)`, content-addressed only by
station code and arrival timestamp, with no deduplication; `clock` is the
arrival timestamp (`datetime.utcnow`). -/
def persist_waveform_bytes (clock : ℚ) (station_code : String)
    (_raw : List Nat) : String × ℚ :=
  ("data/waveforms/" ++ station_code ++ "_" ++ toString clock ++ ".mseed", clock)

/-- Externally observable steps taken by `_handle_trace`, in order. -/
inductive BridgeEffect where
  | registerStation (code : String)
  | persistBytes (station_code : String) (raw : List Nat) (path : String) (ts : ℚ)
  | createWaveform (station_id : Nat) (file_path : String) (received_at : ℚ)
  | enqueue (req : ProcessingRequest)
deriving DecidableEq

/-- `_handle_trace` (`iris_stream.py` lines 168-202): look up the originating
station by code, auto-registering an unknown station with placeholder
coordinates and a `"streaming"` status; serialize the trace to MSEED bytes
(`encode` abstracts the obspy writer); persist the raw bytes; create the
waveform row; enqueue a `ProcessingRequest` for it.  Returns the ordered
effect trace and the updated database. -/
def handle_trace (encode : TraceData → List Nat) (clock : ℚ) (tr : TraceData)
    (db : DB) : List BridgeEffect × DB :=
  let found := db.stations.find? fun s => s.code = tr.station
  let station :=
    match found with
    | some s => s
    | none =>
      { id := db.nextStationId
        code := tr.station
        name := tr.network ++ "-" ++ tr.station
        latitude := 0
        longitude := 0
        elevation_m := 0
        is_active := true
        status := "streaming" }
  let db1 :=
    match found with
    | some _ => db
    | none => { db with stations := db.stations ++ [station],
                        nextStationId := db.nextStationId + 1 }
  let regEffects : List BridgeEffect :=
    match found with
    | some _ => []
    | none => [.registerStation tr.station]
  let raw := encode tr
  let persisted := persist_waveform_bytes clock tr.station raw
  let w : Waveform :=
    { id := db1.nextWaveformId
      station_id := station.id
      file_path := persisted.1
      received_at := persisted.2
      processed := false }
  let db2 := { db1 with waveforms := db1.waveforms ++ [w],
                        nextWaveformId := db1.nextWaveformId + 1 }
  let req : ProcessingRequest :=
    { waveform_id := w.id
      station_id := station.id
      file_path := persisted.1
      received_at := persisted.2 }
  (regEffects ++
    [.persistBytes tr.station raw persisted.1 persisted.2,
     .createWaveform station.id persisted.1 persisted.2,
     .enqueue req], db2)

/-! ## Concrete instances used by witnesses and counterexamples -/

/-- The deployed detection adapter with no model artifact present: it always
returns no detections (`pickers/__init__.py` lines 21-24, 43-44). -/
def exPicker : Picker := fun _ _ => []

/-- The all-zeros entropy stream. -/
def exRng : Entropy := fun _ => 0

/-- A minimal processing request used by concrete instances. -/
def exReq : ProcessingRequest :=
  { waveform_id := 1, station_id := 3, file_path := "f", received_at := 0 }

/-- A station's channel map holding four channels at a 0.1 Hz rate (window
length 1 sample): the three lexicographically first channels hold one pending
sample each, the fourth has just been sliced empty. -/
def chFour : Channels :=
  [("CH1", { start_time := 0, sampling_rate := 1/10, samples := [5] }),
   ("CH2", { start_time := 0, sampling_rate := 1/10, samples := [5] }),
   ("CH3", { start_time := 0, sampling_rate := 1/10, samples := [5] }),
   ("CH4", { start_time := 0, sampling_rate := 1/10, samples := [] })]

/-- A single-channel map with one pending sample beyond nothing: used to
witness window emission. -/
def chOne : Channels := [("ENZ", { start_time := 2, sampling_rate := 1, samples := [4, 5] })]

/-- A single-channel map with two pending one-sample windows. -/
def chTwoWin : Channels := [("A", { start_time := 0, sampling_rate := 1, samples := [7, 8] })]

/-- A registered station used by concrete pipeline runs. -/
def exStation9 : Station := { id := 9, code := "S9", name := "S9", latitude := 1, longitude := 2 }

/-- An unprocessed waveform row for `exStation9`. -/
def exWave2 : Waveform := { id := 2, station_id := 9, file_path := "g", received_at := 0 }

/-- A database holding `exStation9` and `exWave2`. -/
def exDb9 : DB := { stations := [exStation9], waveforms := [exWave2] }

/-- A request carrying one sample at 100 Hz: far less than a 1000-sample
window, so handling it buffers the sample and yields zero picks. -/
def exReqNoWin : ProcessingRequest :=
  { waveform_id := 2, station_id := 9, file_path := "g", received_at := 0,
    samples := some [1], sampling_rate := some 100, channel := some "HNZ" }

/-- The concatenation of the decoded sample arrays of a request sequence, in
arrival order. -/
def concatSamples (reqs : List ProcessingRequest) : List ℚ :=
  reqs.foldr (fun req acc => req.samples.getD [] ++ acc) []

/-- One third of a 10 s window at 100 Hz (scenario input, calls 1 and 2). -/
def exThird1 : ProcessingRequest :=
  { waveform_id := 11, station_id := 4, file_path := "w1", received_at := 50,
    start_time := some 100, samples := some (List.replicate 333 1),
    sampling_rate := some 100, channel := some "BHZ" }

/-- Second third of the scenario window (different arrival time; its start
hint is ignored because the channel buffer already exists). -/
def exThird2 : ProcessingRequest :=
  { waveform_id := 12, station_id := 4, file_path := "w2", received_at := 57,
    start_time := some 103, samples := some (List.replicate 333 2),
    sampling_rate := some 100, channel := some "BHZ" }

/-- Final 334 samples completing the 1000-sample scenario window. -/
def exThird3 : ProcessingRequest :=
  { waveform_id := 13, station_id := 4, file_path := "w3", received_at := 64,
    start_time := some 106, samples := some (List.replicate 334 3),
    sampling_rate := some 100, channel := some "BHZ" }

/-! ## Helper lemmas -/

theorem pyUniform_bounds (a b u : ℚ) (hab : a ≤ b) (h0 : 0 ≤ u) (h1 : u ≤ 1) :
    a ≤ pyUniform a b u ∧ pyUniform a b u ≤ b := by
  unfold pyUniform
  constructor
  · nlinarith [mul_nonneg (sub_nonneg.mpr hab) h0]
  · nlinarith [mul_nonneg (sub_nonneg.mpr hab) (sub_nonneg.mpr h1)]

theorem lookup_map_update (l : List (Nat × Channels)) (sid : Nat) (ch : Channels)
    (sid' : Nat) (h : sid' ≠ sid) :
    List.lookup sid' (l.map fun kv => if kv.1 = sid then (sid, ch) else kv) =
      List.lookup sid' l := by
  induction l with
  | nil => rfl
  | cons kv rest ih =>
    obtain ⟨k, v⟩ := kv
    by_cases hk : k = sid
    · subst hk
      simp [List.lookup_cons, beq_eq_false_iff_ne.mpr h, ih]
    · simp only [List.map_cons, if_neg hk, List.lookup_cons]
      cases hsk : sid' == k <;> simp [hsk, ih]

theorem lookup_append_single (l : List (Nat × Channels)) (sid : Nat) (ch : Channels)
    (sid' : Nat) (h : sid' ≠ sid) :
    List.lookup sid' (l ++ [(sid, ch)]) = List.lookup sid' l := by
  induction l with
  | nil =>
    simp [List.lookup_cons, beq_eq_false_iff_ne.mpr h]
  | cons kv rest ih =>
    obtain ⟨k, v⟩ := kv
    simp only [List.cons_append, List.lookup_cons]
    cases hsk : sid' == k <;> simp [hsk, ih]

theorem lookup_updateStation (bufs : StationBuffers) (sid : Nat) (ch : Channels)
    (sid' : Nat) (h : sid' ≠ sid) :
    List.lookup sid' (updateStation bufs sid ch) = List.lookup sid' bufs := by
  unfold updateStation
  split
  · exact lookup_map_update bufs sid ch sid' h
  · exact lookup_append_single bufs sid ch sid' h

theorem keys_advanceChannels (b : Nat) (sel : List String) (ch : Channels) :
    (advanceChannels b sel ch).map Prod.fst = ch.map Prod.fst := by
  induction ch with
  | nil => rfl
  | cons kv rest ih => simp [advanceChannels]

theorem selectedNames_advanceChannels (b : Nat) (sel : List String) (ch : Channels) :
    selectedNames (advanceChannels b sel ch) = selectedNames ch := by
  unfold selectedNames
  rw [keys_advanceChannels]

theorem lookup_advanceChannels (b : Nat) (sel : List String) (ch : Channels) (n : String) :
    List.lookup n (advanceChannels b sel ch) =
      (List.lookup n ch).map fun buf =>
        if n ∈ sel then
          { buf with samples := buf.samples.drop b, start_time := buf.start_time + 10 }
        else buf := by
  induction ch with
  | nil => rfl
  | cons kv rest ih =>
    obtain ⟨k, v⟩ := kv
    simp only [advanceChannels, List.map_cons, List.lookup_cons]
    cases hnk : n == k
    · simpa [advanceChannels] using ih
    · have hk : n = k := eq_of_beq hnk
      subst hk
      simp

theorem mem_insertSorted (a x : String) (l : List String) :
    x ∈ insertSorted a l ↔ x = a ∨ x ∈ l := by
  induction l with
  | nil => simp [insertSorted]
  | cons b rest ih =>
    unfold insertSorted
    split
    · simp
    · simp only [List.mem_cons, ih]
      tauto

theorem mem_pySorted (x : String) (l : List String) : x ∈ pySorted l ↔ x ∈ l := by
  induction l with
  | nil => simp [pySorted]
  | cons a rest ih =>
    show x ∈ insertSorted a (pySorted rest) ↔ _
    rw [mem_insertSorted]
    simp [ih]

theorem length_insertSorted (a : String) (l : List String) :
    (insertSorted a l).length = l.length + 1 := by
  induction l with
  | nil => rfl
  | cons b rest ih =>
    unfold insertSorted
    split
    · simp
    · simp [ih]

theorem length_pySorted (l : List String) : (pySorted l).length = l.length := by
  induction l with
  | nil => rfl
  | cons a rest ih =>
    show (insertSorted a (pySorted rest)).length = _
    rw [length_insertSorted, ih, List.length_cons]

theorem selectedNames_ne_nil (ch : Channels) (hch : ch ≠ []) : selectedNames ch ≠ [] := by
  intro h
  have hlen := congrArg List.length h
  simp only [selectedNames, List.length_take, length_pySorted, List.length_map,
    List.length_nil] at hlen
  have : ch.length = 0 := by omega
  exact hch (List.length_eq_zero.mp this)

theorem mem_selectedNames_keys (ch : Channels) (n : String)
    (hn : n ∈ selectedNames ch) : n ∈ ch.map Prod.fst :=
  (mem_pySorted _ _).mp (List.take_subset _ _ hn)

theorem lookup_some_of_mem_keys (ch : Channels) (n : String)
    (h : n ∈ ch.map Prod.fst) : ∃ v, List.lookup n ch = some v := by
  induction ch with
  | nil => simp at h
  | cons kv rest ih =>
    obtain ⟨k, v⟩ := kv
    simp only [List.map_cons, List.mem_cons] at h
    cases hnk : n == k
    · rcases h with h | h
      · exact absurd (beq_iff_eq.mpr h) (by simp [hnk])
      · obtain ⟨w, hw⟩ := ih h
        exact ⟨w, by simp [List.lookup_cons, hnk, hw]⟩
    · have hk : n = k := eq_of_beq hnk
      subst hk
      exact ⟨v, by simp [List.lookup_cons]⟩

theorem startTimes_advanceChannels (b : Nat) (ch : Channels) (sel : List String)
    (hsub : ∀ n ∈ sel, n ∈ ch.map Prod.fst) :
    startTimes (advanceChannels b sel ch) sel = (startTimes ch sel).map (· + 10) := by
  unfold startTimes
  rw [List.map_map]
  refine List.map_congr_left fun n hn => ?_
  obtain ⟨v, hv⟩ := lookup_some_of_mem_keys ch n (hsub n hn)
  simp [getCh, lookup_advanceChannels, hv, hn, Function.comp]

theorem minQ_map_add (l : List ℚ) (c : ℚ) (hl : l ≠ []) :
    minQ (l.map (· + c)) = minQ l + c := by
  match l with
  | q :: qs =>
    simp only [List.map_cons, minQ]
    induction qs generalizing q with
    | nil => simp
    | cons p ps ih =>
      simp only [List.map_cons, List.foldl_cons]
      rw [min_add_add_right]
      exact ih (min q p) (by simp)

theorem startTimes_ne_nil (ch : Channels) (hch : ch ≠ []) :
    startTimes ch (selectedNames ch) ≠ [] := by
  unfold startTimes
  intro h
  exact selectedNames_ne_nil ch hch (List.map_eq_nil_iff.mp h)

theorem sliceLoop_get_zero_start (picker : Picker) (rng : Entropy)
    (req : ProcessingRequest) (b : Nat) (r : ℚ) :
    ∀ fuel ch ix e, (sliceLoop picker rng req b r fuel ch ix).2.1.get? 0 = some e →
      e.start_time = minQ (startTimes ch (selectedNames ch)) := by
  intro fuel ch ix e h
  match fuel with
  | 0 => simp [sliceLoop] at h
  | fuel + 1 =>
    by_cases hch : ch = []
    · simp [sliceLoop, hch] at h
    by_cases hmin : minLen ch < b
    · simp [sliceLoop, hch, hmin] at h
    · simp [sliceLoop, hch, hmin] at h
      rw [← h]

theorem sliceLoop_consecutive (picker : Picker) (rng : Entropy)
    (req : ProcessingRequest) (b : Nat) (r : ℚ) :
    ∀ fuel ch ix k e1 e2,
      (sliceLoop picker rng req b r fuel ch ix).2.1.get? k = some e1 →
      (sliceLoop picker rng req b r fuel ch ix).2.1.get? (k + 1) = some e2 →
      e2.start_time = e1.start_time + 10 := by
  intro fuel
  induction fuel with
  | zero =>
    intro ch ix k e1 e2 h1 h2
    simp [sliceLoop] at h1
  | succ fuel ih =>
    intro ch ix k e1 e2 h1 h2
    by_cases hch : ch = []
    · simp [sliceLoop, hch] at h1
    by_cases hmin : minLen ch < b
    · simp [sliceLoop, hch, hmin] at h1
    · simp only [sliceLoop, if_neg hch, if_neg hmin] at h1 h2
      match k with
      | 0 =>
        simp only [List.get?_cons_zero, Option.some.injEq] at h1
        simp only [List.get?_cons_succ] at h2
        have he2 := sliceLoop_get_zero_start picker rng req b r fuel _ _ e2 h2
        rw [he2, selectedNames_advanceChannels,
          startTimes_advanceChannels _ _ _ (mem_selectedNames_keys ch),
          minQ_map_add _ _ (startTimes_ne_nil ch hch), ← h1]
      | k + 1 =>
        simp only [List.get?_cons_succ] at h1 h2
        exact ih _ _ k e1 e2 h1 h2

theorem foldl_min_le_head (t : ℚ) (ts : List ℚ) : ts.foldl min t ≤ t := by
  induction ts generalizing t with
  | nil => exact le_refl t
  | cons p ps ih => exact le_trans (ih (min t p)) (min_le_left _ _)

theorem foldl_min_le_mem (t : ℚ) (ts : List ℚ) (x : ℚ) (hx : x ∈ ts) :
    ts.foldl min t ≤ x := by
  induction hx generalizing t with
  | head as => exact le_trans (foldl_min_le_head _ as) (min_le_right _ _)
  | tail b hb ih => exact ih (min t b)

theorem foldl_min_mem (t : ℚ) (ts : List ℚ) : ts.foldl min t = t ∨ ts.foldl min t ∈ ts := by
  induction ts generalizing t with
  | nil => exact Or.inl rfl
  | cons p ps ih =>
    rcases ih (min t p) with h | h
    · rcases min_choice t p with hm | hm
      · exact Or.inl (by rw [List.foldl_cons, h, hm])
      · exact Or.inr (by rw [List.foldl_cons, h, hm]; exact List.mem_cons_self _ _)
    · exact Or.inr (List.mem_cons_of_mem _ h)

theorem associate_event_ok (rng : Entropy) (ix : Nat) (db : DB) (sid : Nat)
    (picks : List PhasePick) (ev : Event) (db1 : DB) (ix1 : Nat)
    (h : associate_event rng ix db sid picks = .ok (ev, db1, ix1)) :
    db1.events = db.events ++ [ev] ∧ db1.waveforms = db.waveforms ∧
    db1.picks = db.picks ∧ db1.stations = db.stations ∧
    ev.origin_time ∈ picks.map (fun p => p.pick_time) ∧
    (∀ p ∈ picks, ev.origin_time ≤ p.pick_time) ∧
    ∃ station, db.stations.find? (fun s => s.id = sid) = some station ∧
      ev.preferred_station_id = some station.id := by
  unfold associate_event at h
  cases hf : db.stations.find? fun s => s.id = sid with
  | none => rw [hf] at h; exact absurd h (by simp)
  | some station =>
    rw [hf] at h
    cases hp : picks.map fun p => p.pick_time with
    | nil => rw [hp] at h; exact absurd h (by simp)
    | cons t ts =>
      rw [hp] at h
      rw [Except.ok.injEq, Prod.mk.injEq, Prod.mk.injEq] at h
      obtain ⟨hev, hdb, _⟩ := h
      subst hev hdb
      refine ⟨rfl, rfl, rfl, rfl, ?_, ?_, station, rfl, rfl⟩
      · show List.foldl min t ts ∈ t :: ts
        rcases foldl_min_mem t ts with h | h
        · rw [h]; exact List.mem_cons_self _ _
        · exact List.mem_cons_of_mem _ h
      · intro p hmem
        show List.foldl min t ts ≤ p.pick_time
        have hmm : p.pick_time ∈ t :: ts := by
          rw [← hp]; exact List.mem_map_of_mem _ hmem
        rcases List.mem_cons.mp hmm with h | h
        · rw [h]; exact foldl_min_le_head t ts
        · exact foldl_min_le_mem t ts _ h

theorem blockLenOf_hundred : blockLenOf 100 = 1000 := by
  have h1 : pyInt ((100 : ℚ) * 10) = 1000 := by norm_num [pyInt]
  rw [blockLenOf, h1]
  rfl

theorem exNoWin_bp : buffer_and_pick exPicker exRng exReqNoWin [] 0 =
    ([], [], [(9, [("HNZ", { start_time := 0, sampling_rate := 100, samples := [1] })])], 0) := by
  unfold buffer_and_pick
  rw [if_neg]
  · simp only [exReqNoWin, getStation, chanKey, totalLen, updateStation, List.lookup,
      Option.getD, List.map]
    rw [blockLenOf_hundred]
    simp [sliceLoop, minLen]
  · simp [exReqNoWin, truthySamples, truthyRate]

theorem exNoWin_handle : handle_request exPicker exRng exReqNoWin exDb9 [] 0 =
    .ok (update_waveform_processed exDb9 2,
         [(9, [("HNZ", { start_time := 0, sampling_rate := 100, samples := [1] })])], 0) := by
  simp only [handle_request, exNoWin_bp]
  rfl

theorem mem_waveforms_update (db : DB) (wid : Nat) (w : Waveform)
    (hw : w ∈ db.waveforms) (hid : w.id = wid) :
    { w with processed := true } ∈ (update_waveform_processed db wid).waveforms := by
  unfold update_waveform_processed
  have hfw : { w with processed := true } =
      (fun w' => if w'.id = wid then { w' with processed := true } else w') w := by
    simp [hid]
  rw [hfw]
  exact List.mem_map_of_mem _ hw

theorem selectedNames_single (key : String) (buf : ChanBuf) :
    selectedNames [(key, buf)] = [key] := rfl

theorem getCh_single (key : String) (buf : ChanBuf) : getCh [(key, buf)] key = buf := by
  simp [getCh, List.lookup_cons]

theorem minLen_single (key : String) (buf : ChanBuf) :
    minLen [(key, buf)] = buf.samples.length := rfl

theorem windowMatrix_single (key : String) (buf : ChanBuf) (b : Nat) :
    windowMatrix [(key, buf)] b [key] = [buf.samples.take b] := by
  simp [windowMatrix, getCh_single]

theorem startTimes_single (key : String) (buf : ChanBuf) :
    startTimes [(key, buf)] [key] = [buf.start_time] := by
  simp [startTimes, getCh_single]

theorem advanceChannels_single (b : Nat) (key : String) (buf : ChanBuf) :
    advanceChannels b [key] [(key, buf)] =
      [(key, { buf with samples := buf.samples.drop b, start_time := buf.start_time + 10 })] := by
  simp [advanceChannels]

theorem sliceLoop_single (picker : Picker) (rng : Entropy) (req : ProcessingRequest)
    (b : Nat) (r : ℚ) (hb : 1 ≤ b) (key : String) :
    ∀ (fuel : Nat) (s : List ℚ) (st : ℚ) (ix : Nat), s.length ≤ fuel →
      (sliceLoop picker rng req b r fuel [(key, ⟨st, r, s⟩)] ix).2.1 =
        (List.range (s.length / b)).map (fun k =>
          { start_time := st + 10 * (k : ℚ),
            matrix := padTo3 [(s.drop (b * k)).take b] }) ∧
      (sliceLoop picker rng req b r fuel [(key, ⟨st, r, s⟩)] ix).2.2.1 =
        [(key, ⟨st + 10 * ((s.length / b : ℕ) : ℚ), r, s.drop (b * (s.length / b))⟩)] := by
  intro fuel
  induction fuel with
  | zero =>
    intro s st ix hle
    have hs : s = [] := List.length_eq_zero.mp (Nat.le_zero.mp hle)
    subst hs
    simp [sliceLoop]
  | succ fuel ih =>
    intro s st ix hle
    by_cases hlt : s.length < b
    · have hdiv : s.length / b = 0 := Nat.div_eq_of_lt hlt
      have hmin : minLen [(key, (⟨st, r, s⟩ : ChanBuf))] < b := by
        rw [minLen_single]; exact hlt
      constructor
      · simp [sliceLoop, hmin, hdiv]
      · simp [sliceLoop, hmin, hdiv]
    · have hge : b ≤ s.length := Nat.le_of_not_lt hlt
      have hb0 : 0 < b := hb
      have hmin : ¬ minLen [(key, (⟨st, r, s⟩ : ChanBuf))] < b := by
        rw [minLen_single]; exact hlt
      have hdiv : s.length / b = (s.length - b) / b + 1 := Nat.div_eq_sub_div hb0 hge
      have hlen' : (s.drop b).length = s.length - b := List.length_drop b s
      have hfuel : (s.drop b).length ≤ fuel := by rw [hlen']; omega
      constructor
      · simp only [sliceLoop, if_neg (by simp : ¬ ([(key, (⟨st, r, s⟩ : ChanBuf))] = [])),
          if_neg hmin, selectedNames_single, windowMatrix_single, startTimes_single,
          advanceChannels_single, minQ, List.foldl_nil]
        rw [(ih (s.drop b) (st + 10) _ hfuel).1, hlen', hdiv, List.range_succ_eq_map,
          List.map_cons, List.map_map]
        congr 1
        · simp
        · refine List.map_congr_left fun k _ => ?_
          simp only [Function.comp_apply]
          congr 1
          · push_cast
            ring
          · rw [List.drop_drop, show b + b * k = b * (k + 1) from by ring]
      · simp only [sliceLoop, if_neg (by simp : ¬ ([(key, (⟨st, r, s⟩ : ChanBuf))] = [])),
          if_neg hmin, selectedNames_single, windowMatrix_single, startTimes_single,
          advanceChannels_single, minQ, List.foldl_nil]
        rw [(ih (s.drop b) (st + 10) _ hfuel).2, hlen']
        have ht : st + 10 + 10 * (((s.length - b) / b : ℕ) : ℚ) =
            st + 10 * ((s.length / b : ℕ) : ℚ) := by
          rw [hdiv]; push_cast; ring
        have hd : List.drop (b * ((s.length - b) / b)) (List.drop b s) =
            List.drop (b * (s.length / b)) s := by
          rw [List.drop_drop, hdiv]
          congr 1
          ring
        rw [ht, hd]

theorem lookup_updateStation_self (bufs : StationBuffers) (sid : Nat) (ch : Channels) :
    List.lookup sid (updateStation bufs sid ch) = some ch := by
  unfold updateStation
  split
  case isTrue h =>
    induction bufs with
    | nil => simp at h
    | cons kv rest ih =>
      obtain ⟨k, v⟩ := kv
      by_cases hk : k = sid
      · subst hk
        simp [List.lookup_cons]
      · have hks : (sid == k) = false := beq_eq_false_iff_ne.mpr (Ne.symm hk)
        simp only [List.map_cons, if_neg hk, List.lookup_cons, hks]
        apply ih
        simpa [List.lookup_cons, hks] using h
  case isFalse h =>
    induction bufs with
    | nil => simp [List.lookup_cons]
    | cons kv rest ih =>
      obtain ⟨k, v⟩ := kv
      have hks : (sid == k) = false := by
        cases hsk : sid == k
        · rfl
        · exfalso
          apply h
          have hek : sid = k := eq_of_beq hsk
          subst hek
          simp [List.lookup_cons]
      simp only [List.cons_append, List.lookup_cons, hks]
      apply ih
      intro hcon
      apply h
      simpa [List.lookup_cons, hks] using hcon

theorem buffer_and_pick_single (picker : Picker) (rng : Entropy)
    (req : ProcessingRequest) (sid : Nat) (c : String) (r : ℚ) (b : Nat)
    (hb : blockLenOf r = b) (hb1 : 1 ≤ b) (hr : r ≠ 0) (hc : c ≠ "")
    (hsid : req.station_id = sid) (hchan : req.channel = some c)
    (hrate : req.sampling_rate = some r)
    (s : List ℚ) (hs : req.samples = some s) (hsne : s ≠ [])
    (bufs : StationBuffers) (pend : List ℚ) (st : ℚ)
    (hbufs : List.lookup sid bufs = some [(c, ⟨st, r, pend⟩)]) (ix : Nat) :
    (buffer_and_pick picker rng req bufs ix).2.1 =
      (List.range ((pend ++ s).length / b)).map (fun k =>
        { start_time := st + 10 * (k : ℚ),
          matrix := padTo3 [((pend ++ s).drop (b * k)).take b] }) ∧
    List.lookup sid (buffer_and_pick picker rng req bufs ix).2.2.1 =
      some [(c, ⟨st + 10 * (((pend ++ s).length / b : ℕ) : ℚ), r,
        (pend ++ s).drop (b * ((pend ++ s).length / b))⟩)] := by
  have hcond : ¬ (¬ truthySamples req.samples = true ∨ ¬ truthyRate req.sampling_rate = true) := by
    rw [hs, hrate]
    simp [truthySamples, truthyRate, hsne, hr]
  have hkey : chanKey req.channel = c := by rw [hchan]; simp [chanKey, hc]
  have hgs : getStation bufs sid = [(c, (⟨st, r, pend⟩ : ChanBuf))] := by
    rw [getStation, hbufs, Option.getD]
  unfold buffer_and_pick
  rw [if_neg hcond, hsid, hgs, hkey, hs, hrate]
  simp only [Option.getD_some, List.lookup_cons, beq_self_eq_true, Option.isSome_some,
    if_true, ite_true, eq_self_iff_true, List.map_cons, List.map_nil, totalLen,
    List.sum_cons, List.sum_nil, Nat.add_zero, hb]
  have hslice := sliceLoop_single picker rng req b r hb1 c
  constructor
  · rw [(hslice ((pend ++ s).length + 1) (pend ++ s) st ix (by omega)).1]
  · rw [lookup_updateStation_self, (hslice ((pend ++ s).length + 1) (pend ++ s) st ix (by omega)).2]

theorem buffer_and_pick_single_fresh (picker : Picker) (rng : Entropy)
    (req : ProcessingRequest) (sid : Nat) (c : String) (r : ℚ) (b : Nat)
    (hb : blockLenOf r = b) (hb1 : 1 ≤ b) (hr : r ≠ 0) (hc : c ≠ "")
    (hsid : req.station_id = sid) (hchan : req.channel = some c)
    (hrate : req.sampling_rate = some r)
    (s : List ℚ) (hs : req.samples = some s) (hsne : s ≠ [])
    (bufs : StationBuffers) (hbufs : List.lookup sid bufs = none) (ix : Nat) :
    (buffer_and_pick picker rng req bufs ix).2.1 =
      (List.range (s.length / b)).map (fun k =>
        { start_time := req.start_time.getD req.received_at + 10 * (k : ℚ),
          matrix := padTo3 [(s.drop (b * k)).take b] }) ∧
    List.lookup sid (buffer_and_pick picker rng req bufs ix).2.2.1 =
      some [(c, ⟨req.start_time.getD req.received_at + 10 * ((s.length / b : ℕ) : ℚ), r,
        s.drop (b * (s.length / b))⟩)] := by
  have hcond : ¬ (¬ truthySamples req.samples = true ∨ ¬ truthyRate req.sampling_rate = true) := by
    rw [hs, hrate]
    simp [truthySamples, truthyRate, hsne, hr]
  have hkey : chanKey req.channel = c := by rw [hchan]; simp [chanKey, hc]
  have hgs : getStation bufs sid = [] := by
    rw [getStation, hbufs, Option.getD]
  unfold buffer_and_pick
  rw [if_neg hcond, hsid, hgs, hkey, hs, hrate]
  simp only [Option.getD_some, List.lookup_nil, Option.isSome_none, Bool.false_eq_true,
    if_false, List.nil_append, List.map_cons, List.map_nil, eq_self_iff_true, ite_true,
    totalLen, List.sum_cons, List.sum_nil, Nat.add_zero, hb]
  have hslice := sliceLoop_single picker rng req b r hb1 c
  constructor
  · rw [(hslice (s.length + 1) s (req.start_time.getD req.received_at) ix (by omega)).1]
  · rw [lookup_updateStation_self,
      (hslice (s.length + 1) s (req.start_time.getD req.received_at) ix (by omega)).2]

theorem take_drop_append (l ext : List ℚ) (n b : ℕ) (h : n + b ≤ l.length) :
    ((l ++ ext).drop n).take b = (l.drop n).take b := by
  rw [List.drop_append_of_le_length (by omega),
    List.take_append_of_le_length (by rw [List.length_drop]; omega)]

theorem div_shift (b : ℕ) (hb : 0 < b) (D0 n : ℕ) (h : b * D0 ≤ n) :
    D0 + (n - b * D0) / b = n / b := by
  conv_rhs => rw [show n = (n - b * D0) + b * D0 from by omega]
  rw [Nat.add_mul_div_left _ _ hb, Nat.add_comm]

theorem length_remainder (s : List ℚ) (b : ℕ) :
    (s.drop (b * (s.length / b))).length = s.length % b := by
  rw [List.length_drop]
  have h := Nat.div_add_mod s.length b
  omega

theorem step_events_to_global (b : ℕ) (st0 : ℚ) (P ext : List ℚ)
    (D0 : ℕ) (hD0b : b * D0 ≤ P.length) :
    (List.range ((P.drop (b * D0)).length / b)).map
      (fun k => { start_time := st0 + 10 * ((D0 : ℕ) : ℚ) + 10 * (k : ℚ),
                  matrix := padTo3 [((P.drop (b * D0)).drop (b * k)).take b] }) =
    (List.range' D0 ((P.drop (b * D0)).length / b)).map
      (fun (k : ℕ) => ({ start_time := st0 + 10 * (k : ℚ),
                         matrix := padTo3 [((P ++ ext).drop (b * k)).take b] } : SliceEvent)) := by
  rw [List.range'_eq_map_range, List.map_map]
  refine List.map_congr_left fun k hk => ?_
  have hklt : k < (P.drop (b * D0)).length / b := List.mem_range.mp hk
  have hlen : (P.drop (b * D0)).length = P.length - b * D0 := List.length_drop _ _
  rw [hlen] at hklt
  have hbound : b * D0 + b * k + b ≤ P.length := by
    have h2 : k + 1 ≤ (P.length - b * D0) / b := hklt
    have h3 : b * ((P.length - b * D0) / b) ≤ P.length - b * D0 := Nat.mul_div_le _ _
    have h4 : b * (k + 1) ≤ b * ((P.length - b * D0) / b) := Nat.mul_le_mul_left b h2
    calc b * D0 + b * k + b = b * D0 + b * (k + 1) := by ring
    _ ≤ b * D0 + b * ((P.length - b * D0) / b) := Nat.add_le_add_left h4 _
    _ ≤ b * D0 + (P.length - b * D0) := Nat.add_le_add_left h3 _
    _ ≤ P.length := by omega
  congr 1
  · push_cast
    ring
  · rw [List.drop_drop, show b * D0 + b * k = b * (D0 + k) from by ring,
      take_drop_append P ext (b * (D0 + k)) b
        (by rw [show b * (D0 + k) = b * D0 + b * k from by ring]; omega)]

theorem runCalls_single (picker : Picker) (rng : Entropy) (sid : Nat) (c : String)
    (r : ℚ) (b : Nat) (hb : blockLenOf r = b) (hb1 : 1 ≤ b) (hr : r ≠ 0) (hc : c ≠ "") :
    ∀ (reqs : List ProcessingRequest),
      (∀ req ∈ reqs, req.station_id = sid ∧ req.channel = some c ∧
        req.sampling_rate = some r ∧ ∃ s, req.samples = some s ∧ s ≠ []) →
      ∀ (bufs : StationBuffers) (prev : List ℚ) (st0 : ℚ) (ix : Nat),
        List.lookup sid bufs =
          some [(c, ⟨st0 + 10 * ((prev.length / b : ℕ) : ℚ), r,
            prev.drop (b * (prev.length / b))⟩)] →
        (runCalls picker rng reqs bufs ix).2.1 =
          (List.range' (prev.length / b)
              ((prev.length + (concatSamples reqs).length) / b - prev.length / b)).map
            (fun (k : ℕ) => { start_time := st0 + 10 * (k : ℚ),
                              matrix := padTo3 [((prev ++ concatSamples reqs).drop (b * k)).take b] }) ∧
        List.lookup sid (runCalls picker rng reqs bufs ix).2.2.1 =
          some [(c, ⟨st0 + 10 * (((prev.length + (concatSamples reqs).length) / b : ℕ) : ℚ), r,
            (prev ++ concatSamples reqs).drop
              (b * ((prev.length + (concatSamples reqs).length) / b))⟩)] := by
  intro reqs
  induction reqs with
  | nil =>
    intro hgood bufs prev st0 ix hbufs
    constructor
    · simp [runCalls, concatSamples]
    · simpa [runCalls, concatSamples] using hbufs
  | cons req rest ih =>
    intro hgood bufs prev st0 ix hbufs
    obtain ⟨hsid, hchan, hrate, s, hs, hsne⟩ := hgood req (List.mem_cons_self _ _)
    have hgood' := fun q hq => hgood q (List.mem_cons_of_mem _ hq)
    have hb0 : 0 < b := hb1
    have hcs : concatSamples (req :: rest) = s ++ concatSamples rest := by
      simp [concatSamples, hs]
    have hD0p : b * (prev.length / b) ≤ prev.length := Nat.mul_div_le _ _
    have hstep := buffer_and_pick_single picker rng req sid c r b hb hb1 hr hc hsid hchan
      hrate s hs hsne bufs (prev.drop (b * (prev.length / b)))
      (st0 + 10 * ((prev.length / b : ℕ) : ℚ)) hbufs ix
    rw [← List.drop_append_of_le_length hD0p] at hstep
    have hPlen : (prev ++ s).length = prev.length + s.length := List.length_append _ _
    have hW1D : prev.length / b + ((prev ++ s).drop (b * (prev.length / b))).length / b
        = (prev ++ s).length / b := by
      rw [List.length_drop]
      exact div_shift b hb0 _ _ (by rw [hPlen]; omega)
    have hD0P : b * (prev.length / b) ≤ (prev ++ s).length := by rw [hPlen]; omega
    have ht : st0 + 10 * ((prev.length / b : ℕ) : ℚ)
          + 10 * ((((prev ++ s).drop (b * (prev.length / b))).length / b : ℕ) : ℚ)
        = st0 + 10 * (((prev ++ s).length / b : ℕ) : ℚ) := by
      rw [← hW1D]
      push_cast
      ring
    have hd : ((prev ++ s).drop (b * (prev.length / b))).drop
          (b * (((prev ++ s).drop (b * (prev.length / b))).length / b))
        = (prev ++ s).drop (b * ((prev ++ s).length / b)) := by
      rw [List.drop_drop, ← hW1D]
      congr 1
      ring
    have hbufs' := hstep.2
    rw [ht, hd] at hbufs'
    have hIH := ih hgood' _ (prev ++ s) st0
      ((buffer_and_pick picker rng req bufs ix).2.2.2) hbufs'
    have hle : (prev ++ s).length / b ≤ ((prev ++ s).length + (concatSamples rest).length) / b :=
      Nat.div_le_div_right (Nat.le_add_right _ _)
    constructor
    · simp only [runCalls]
      rw [hcs, ← List.append_assoc, List.length_append s, ← Nat.add_assoc, ← hPlen,
        hstep.1, hIH.1,
        step_events_to_global b st0 (prev ++ s) (concatSamples rest) (prev.length / b) hD0P,
        ← hW1D, ← List.map_append, List.range'_append_1]
      rw [← hW1D] at hle
      congr 2
      rw [← Nat.sub_sub]
      exact Nat.sub_add_cancel (by omega)
    · simp only [runCalls]
      rw [hcs, ← List.append_assoc, List.length_append s, ← Nat.add_assoc, ← hPlen, hIH.2]

theorem first_events_to_global (b : ℕ) (st0 : ℚ) (P ext : List ℚ) :
    (List.range (P.length / b)).map
      (fun (k : ℕ) => ({ start_time := st0 + 10 * (k : ℚ),
                         matrix := padTo3 [(P.drop (b * k)).take b] } : SliceEvent)) =
    (List.range' 0 (P.length / b)).map
      (fun (k : ℕ) => ({ start_time := st0 + 10 * (k : ℚ),
                         matrix := padTo3 [((P ++ ext).drop (b * k)).take b] } : SliceEvent)) := by
  rw [← List.range_eq_range']
  refine List.map_congr_left fun k hk => ?_
  have hklt : k < P.length / b := List.mem_range.mp hk
  have h3 : b * (P.length / b) ≤ P.length := Nat.mul_div_le _ _
  have h4 : b * (k + 1) ≤ b * (P.length / b) := Nat.mul_le_mul_left b hklt
  have hbound : b * k + b ≤ P.length := by
    calc b * k + b = b * (k + 1) := by ring
    _ ≤ b * (P.length / b) := h4
    _ ≤ P.length := h3
  congr 1
  rw [take_drop_append P ext (b * k) b hbound]

theorem mem_padTo3_single (x row : List ℚ) (h : row ∈ padTo3 [x]) : row = x := by
  simp only [padTo3, List.headD_cons, List.length_cons, List.length_nil] at h
  rcases List.mem_append.mp h with h | h
  · simpa using h
  · exact (List.eq_of_mem_replicate h)

theorem chunk_len (P : List ℚ) (b k : ℕ) (hk : k < P.length / b) :
    ((P.drop (b * k)).take b).length = b := by
  rw [List.length_take, List.length_drop]
  have h3 : b * (P.length / b) ≤ P.length := Nat.mul_div_le _ _
  have h4 : b * (k + 1) ≤ b * (P.length / b) := Nat.mul_le_mul_left b hk
  have hbound : b * k + b ≤ P.length := by
    calc b * k + b = b * (k + 1) := by ring
    _ ≤ b * (P.length / b) := h4
    _ ≤ P.length := h3
  omega

/-- C9 counterexample: starting from a stopped bridge whose previous session
left `last_frame` set, `start_live_stream` succeeds but the `last_frame`
timestamp is not reset — the status update at `iris_stream.py` lines 51-61
omits the `last_frame` key, contradicting the claim that the last-frame
timestamp is reset for the new session. -/
theorem c9_counterexample :
    (start_live_stream "IU" "ANMO" "00" "BHZ"
        { status := { last_frame := some "2024-01-01T00:00:00", frames := 6 } }).1 = true ∧
    (start_live_stream "IU" "ANMO" "00" "BHZ"
        { status := { last_frame := some "2024-01-01T00:00:00", frames := 6 } }).2.status.last_frame
      = some "2024-01-01T00:00:00" ∧
    (start_live_stream "IU" "ANMO" "00" "BHZ"
        { status := { last_frame := some "2024-01-01T00:00:00", frames := 6 } }).2.status.last_frame
      ≠ none := by
  refine ⟨rfl, rfl, ?_⟩
  decide

/-- C9 (amended): a `start` call on a running bridge returns failure and
leaves the stream state unchanged; a `start` call on a stopped bridge returns
success and resets the status for the new session — running flag set, frame
counter zeroed, source selectors set, last error cleared — while the
last-frame timestamp retains its previous value (it is not reset). -/
theorem c9_start_live_stream (n s l c : String) (st : StreamState) :
    (st.status.running = true → start_live_stream n s l c st = (false, st)) ∧
    (st.status.running = false →
      start_live_stream n s l c st =
        (true,
          { stopEvent := false
            status :=
              { running := true
                frames := 0
                network := some n
                station := some s
                location := some l
                channel := some c
                last_frame := st.status.last_frame
                error := none } })) := by
  obtain ⟨⟨r, f, nw, stn, loc, chn, lf, er⟩, se⟩ := st
  constructor <;> intro h <;> simp_all [start_live_stream]

/-- C9 witness for the amended theorem, at a running and at a stopped
state. -/
theorem c9_witness :
    start_live_stream "IU" "ANMO" "00" "BHZ"
        { status := { running := true, frames := 3 } } =
      (false, { status := { running := true, frames := 3 } }) ∧
    start_live_stream "IU" "ANMO" "00" "BHZ"
        { status := { running := false, last_frame := some "T0" } } =
      (true,
        { stopEvent := false
          status :=
            { running := true
              frames := 0
              network := some "IU"
              station := some "ANMO"
              location := some "00"
              channel := some "BHZ"
              last_frame := some "T0"
              error := none } }) :=
  ⟨(c9_start_live_stream "IU" "ANMO" "00" "BHZ"
      { status := { running := true, frames := 3 } }).1 rfl,
   (c9_start_live_stream "IU" "ANMO" "00" "BHZ"
      { status := { running := false, last_frame := some "T0" } }).2 rfl⟩

/-- C10: handling a `ProcessingRequest` touches the station-buffer map only
under the request's own station id — for every other station id the buffered
state is unchanged by `_buffer_and_pick`. -/
theorem c10_frame_other_stations (picker : Picker) (rng : Entropy)
    (req : ProcessingRequest) (bufs : StationBuffers) (ix : Nat) (sid' : Nat)
    (h : sid' ≠ req.station_id) :
    List.lookup sid' (buffer_and_pick picker rng req bufs ix).2.2.1 =
      List.lookup sid' bufs := by
  unfold buffer_and_pick
  split
  · rfl
  · exact lookup_updateStation bufs req.station_id _ sid' h

/-- C10 witness: a request for station 1 leaves station 2's buffers
untouched. -/
theorem c10_witness :
    List.lookup 2
        (buffer_and_pick (fun _ _ => []) (fun _ => 0)
          { waveform_id := 1, station_id := 1, file_path := "f", received_at := 0,
            samples := some [1, 2], sampling_rate := some 100, channel := some "BHZ" }
          [(2, [("HHZ", { start_time := 4, sampling_rate := 50, samples := [9] })])]
          0).2.2.1 =
      List.lookup 2 [(2, [("HHZ", { start_time := 4, sampling_rate := 50, samples := [9] })])] :=
  c10_frame_other_stations (fun _ _ => []) (fun _ => 0)
    { waveform_id := 1, station_id := 1, file_path := "f", received_at := 0,
      samples := some [1, 2], sampling_rate := some 100, channel := some "BHZ" }
    [(2, [("HHZ", { start_time := 4, sampling_rate := 50, samples := [9] })])]
    0 2 (by decide)

/-- C2: for every decoded trace relayed by the stream bridge, the effect trace
of `_handle_trace` contains the raw-bytes persist step for that trace's
serialized bytes strictly before the enqueue of the corresponding
`ProcessingRequest`, whose file path and received timestamp are exactly the
persist operation's outputs. -/
theorem c2_persist_before_enqueue (encode : TraceData → List Nat) (clock : ℚ)
    (tr : TraceData) (db : DB) :
    ∃ i j path ts req, i < j ∧
      (handle_trace encode clock tr db).1.get? i =
        some (.persistBytes tr.station (encode tr) path ts) ∧
      (handle_trace encode clock tr db).1.get? j =
        some (.enqueue req) ∧
      req.file_path = path ∧ req.received_at = ts := by
  cases h : db.stations.find? fun s => s.code = tr.station with
  | none =>
    simp only [handle_trace, h]
    exact ⟨1, 3, _, _, _, by norm_num, rfl, rfl, rfl, rfl⟩
  | some s =>
    simp only [handle_trace, h]
    exact ⟨0, 2, _, _, _, by norm_num, rfl, rfl, rfl, rfl⟩

/-- C1: the worker loop of `process_waveforms` has a `try/finally` with no
`except` clause, so an exception raised while handling one request terminates
the worker and the subsequent queued requests are never processed.  Concrete
failing run: the first request (for a station absent from the database, so
`_associate_event`'s `.one()` raises) crashes the worker and the second
request remains queued forever; as a control, the same second request is
handled fine by a fresh worker on a database containing its station. -/
theorem c1_worker_crash :
    process_waveforms (fun _ _ => []) (fun _ => 0)
        [{ waveform_id := 1, station_id := 7, file_path := "a", received_at := 0 },
         { waveform_id := 2, station_id := 8, file_path := "b", received_at := 0 }]
        { waveforms := [{ id := 1, station_id := 7, file_path := "a", received_at := 0,
                          processed := false }],
          stations := [{ id := 8, code := "S8", name := "S8", latitude := 0, longitude := 0 }] }
        [] 0 =
      { db := { waveforms := [{ id := 1, station_id := 7, file_path := "a", received_at := 0,
                                processed := false }],
                stations := [{ id := 8, code := "S8", name := "S8", latitude := 0, longitude := 0 }] }
        bufs := []
        ix := 0
        crashed := some "NoResultFound"
        remaining := [{ waveform_id := 2, station_id := 8, file_path := "b", received_at := 0 }] } ∧
    (process_waveforms (fun _ _ => []) (fun _ => 0)
        [{ waveform_id := 2, station_id := 8, file_path := "b", received_at := 0 }]
        { stations := [{ id := 8, code := "S8", name := "S8", latitude := 0, longitude := 0 }] }
        [] 0).crashed = none := by
  constructor <;> rfl

/-- C7: every invocation of the simulation fallback yields exactly 4 picks,
labelled `Pg`, `Sg`, `Pn`, `Sn` in order, each with pick time equal to the
base time (the window start when given, otherwise the request's received
time) plus an offset in `[0.5, 6.0]`, quality in `[0.7, 0.99]`, and with the
polarity and category attributes set — provided the entropy draws are
unit-interval values, as `random.uniform` guarantees. -/
theorem c7_simulation_fallback (rng : Entropy) (ix : Nat)
    (req : ProcessingRequest) (base_time : Option ℚ)
    (h : ∀ n, 0 ≤ rng n ∧ rng n ≤ 1) :
    (simulate_phase_picks rng ix req base_time).1.length = 4 ∧
    (simulate_phase_picks rng ix req base_time).1.map (fun p => p.phase_type) =
      ["Pg", "Sg", "Pn", "Sn"] ∧
    ∀ p ∈ (simulate_phase_picks rng ix req base_time).1,
      p.station_id = req.station_id ∧
      (∃ off, 1/2 ≤ off ∧ off ≤ 6 ∧
        p.pick_time = base_time.getD req.received_at + off) ∧
      7/10 ≤ p.quality ∧ p.quality ≤ 99/100 ∧
      p.initial_motion.isSome ∧ p.earthquake_type.isSome := by
  refine ⟨rfl, rfl, ?_⟩
  intro p hp
  simp only [simulate_phase_picks, simulateLoop, phase_types,
    List.mem_cons, List.not_mem_nil, or_false] at hp
  have hq : ∀ n, 7/10 ≤ pyUniform (7/10) (99/100) (rng n) ∧
      pyUniform (7/10) (99/100) (rng n) ≤ 99/100 := fun n =>
    pyUniform_bounds _ _ _ (by norm_num) (h n).1 (h n).2
  have ho : ∀ n, 1/2 ≤ pyUniform (1/2) 6 (rng n) ∧
      pyUniform (1/2) 6 (rng n) ≤ 6 := fun n =>
    pyUniform_bounds _ _ _ (by norm_num) (h n).1 (h n).2
  rcases hp with hp | hp | hp | hp <;> subst hp <;>
    exact ⟨rfl, ⟨_, (ho _).1, (ho _).2, rfl⟩, (hq _).1, (hq _).2, rfl, rfl⟩

/-- C7 witness at a concrete request and the all-zero entropy stream. -/
theorem c7_witness :
    (simulate_phase_picks (fun _ => 0) 0
        { waveform_id := 1, station_id := 2, file_path := "f", received_at := 0 }
        none).1.length = 4 ∧
    (simulate_phase_picks (fun _ => 0) 0
        { waveform_id := 1, station_id := 2, file_path := "f", received_at := 0 }
        none).1.map (fun p => p.phase_type) = ["Pg", "Sg", "Pn", "Sn"] :=
  have h := c7_simulation_fallback (fun _ => 0) 0
    { waveform_id := 1, station_id := 2, file_path := "f", received_at := 0 }
    none (fun _ => by norm_num)
  ⟨h.1, h.2.1⟩

/-- C5 counterexample: with four buffered channels the code gates window
emission on the minimum sample count over ALL channels
(`pipeline.py` line 103, `channels.values()`), not over the up-to-three
lexicographically-first selected channels as claimed.  In `chFour` the three
selected channels each hold a full window (1 sample at window length 1), yet
no window is emitted because the unselected fourth channel is empty. -/
theorem c5_counterexample :
    selectedNames chFour = ["CH1", "CH2", "CH3"] ∧
    (∀ n ∈ selectedNames chFour, 1 ≤ (getCh chFour n).samples.length) ∧
    (sliceLoop exPicker exRng exReq 1 (1/10) 5 chFour 0).2.1 = [] := by
  refine ⟨rfl, by decide, rfl⟩

/-- C5 (amended): while a station's channel map is non-empty, the slicing
loop emits a multi-component window if and only if the shortest currently
available channel length across ALL of the station's channels reaches the
window length; when it does, the emitted matrix consists of the
lexicographically-first up-to-three channels' leading window-length samples,
padded to three rows by duplicating the first selected channel's row when
fewer than three channels exist, and is tagged with the minimum selected
start time. -/
theorem c5_window_emission (picker : Picker) (rng : Entropy)
    (req : ProcessingRequest) (b : Nat) (r : ℚ) (fuel : Nat) (ch : Channels)
    (ix : Nat) (hch : ch ≠ []) :
    ((sliceLoop picker rng req b r (fuel + 1) ch ix).2.1 ≠ [] ↔ b ≤ minLen ch) ∧
    (b ≤ minLen ch →
      (sliceLoop picker rng req b r (fuel + 1) ch ix).2.1.head? =
        some { start_time := minQ (startTimes ch (selectedNames ch)),
               matrix := padTo3 (windowMatrix ch b (selectedNames ch)) }) := by
  by_cases hmin : minLen ch < b
  · constructor
    · simp [sliceLoop, hch, hmin]
    · intro hle
      omega
  · constructor
    · simp only [sliceLoop, if_neg hch, if_neg hmin]
      simp only [ne_eq, List.cons_ne_nil, not_false_eq_true, true_iff]
      omega
    · intro _
      simp [sliceLoop, hch, hmin]

/-- C5 witness for the amended theorem at a single-channel state holding two
pending samples at window length 1. -/
theorem c5_witness :
    ((sliceLoop exPicker exRng exReq 1 1 1 chOne 0).2.1 ≠ [] ↔ 1 ≤ minLen chOne) ∧
    (1 ≤ minLen chOne →
      (sliceLoop exPicker exRng exReq 1 1 1 chOne 0).2.1.head? =
        some { start_time := minQ (startTimes chOne (selectedNames chOne)),
               matrix := padTo3 (windowMatrix chOne 1 (selectedNames chOne)) }) :=
  c5_window_emission exPicker exRng exReq 1 1 0 chOne 0 (by decide)

/-- C4: the start time tagged on successive window slices of one processing
run differs by exactly the 10-second window duration, independently of
sample arrival times; and each slicing operation updates every selected
channel by dropping exactly one window-length block from the front of its
sample list (no reordering) and advancing its recorded start time by exactly
10 seconds, leaving unselected channels untouched. -/
theorem c4_start_time_advance (picker : Picker) (rng : Entropy)
    (req : ProcessingRequest) (b : Nat) (r : ℚ) :
    (∀ fuel ch ix k e1 e2,
      (sliceLoop picker rng req b r fuel ch ix).2.1.get? k = some e1 →
      (sliceLoop picker rng req b r fuel ch ix).2.1.get? (k + 1) = some e2 →
      e2.start_time = e1.start_time + 10) ∧
    (∀ sel ch n buf, List.lookup n ch = some buf →
      List.lookup n (advanceChannels b sel ch) =
        some (if n ∈ sel then
          { buf with samples := buf.samples.drop b, start_time := buf.start_time + 10 }
        else buf)) := by
  refine ⟨sliceLoop_consecutive picker rng req b r, fun sel ch n buf h => ?_⟩
  rw [lookup_advanceChannels, h, Option.map_some']

/-- C4 witness: on a single-channel buffer with two one-sample windows the
two emitted slices are tagged 0 and 0 + 10, and advancing the channel drops
its first sample and moves its start time from 0 to 0 + 10. -/
theorem c4_witness :
    (SliceEvent.mk ((0 : ℚ) + 10) [[8], [8], [8]]).start_time =
      (SliceEvent.mk 0 [[7], [7], [7]]).start_time + 10 ∧
    List.lookup "A" (advanceChannels 1 ["A"] chTwoWin) =
      some (if "A" ∈ ["A"] then
        { start_time := (0 : ℚ) + 10, sampling_rate := 1, samples := List.drop 1 [7, 8] }
      else { start_time := 0, sampling_rate := 1, samples := [7, 8] }) :=
  ⟨(c4_start_time_advance exPicker exRng exReq 1 1).1 3 chTwoWin 0 0
      (SliceEvent.mk 0 [[7], [7], [7]]) (SliceEvent.mk ((0 : ℚ) + 10) [[8], [8], [8]])
      rfl rfl,
   (c4_start_time_advance exPicker exRng exReq 1 1).2 ["A"] chTwoWin "A"
      { start_time := 0, sampling_rate := 1, samples := [7, 8] } rfl⟩

/-- C8: whenever `_handle_request` runs to completion on a request, the
originating waveform record is marked processed in the resulting database —
both on the zero-pick path and on the association path. -/
theorem c8_waveform_processed (picker : Picker) (rng : Entropy)
    (req : ProcessingRequest) (db : DB) (bufs : StationBuffers) (ix : Nat)
    (db' : DB) (bufs' : StationBuffers) (ix' : Nat)
    (h : handle_request picker rng req db bufs ix = .ok (db', bufs', ix'))
    (w : Waveform) (hw : w ∈ db.waveforms) (hid : w.id = req.waveform_id) :
    { w with processed := true } ∈ db'.waveforms := by
  simp only [handle_request] at h
  by_cases hp : (buffer_and_pick picker rng req bufs ix).1 = []
  · rw [if_pos hp, Except.ok.injEq, Prod.mk.injEq, Prod.mk.injEq] at h
    obtain ⟨hdb, -, -⟩ := h
    rw [← hdb]
    exact mem_waveforms_update db req.waveform_id w hw hid
  · rw [if_neg hp] at h
    cases hassoc : associate_event rng (buffer_and_pick picker rng req bufs ix).2.2.2
        db req.station_id (buffer_and_pick picker rng req bufs ix).1 with
    | error e => rw [hassoc] at h; exact absurd h (by simp)
    | ok tr =>
      obtain ⟨ev, db1, ix1⟩ := tr
      rw [hassoc, Except.ok.injEq, Prod.mk.injEq, Prod.mk.injEq] at h
      obtain ⟨hdb, -, -⟩ := h
      have hwave := (associate_event_ok _ _ _ _ _ _ _ _ hassoc).2.1
      rw [← hdb]
      have hw1 : w ∈ (attach_picks_to_event db1 ev.id
          (buffer_and_pick picker rng req bufs ix).1).waveforms := by
        show w ∈ db1.waveforms
        rw [hwave]; exact hw
      exact mem_waveforms_update _ req.waveform_id w hw1 hid

/-- C6: when the triggering station exists, a non-empty pick batch from one
processing cycle creates exactly one event — appended to the events table —
whose origin time is the minimum pick time of the batch and whose preferred
station is the triggering station, and every pick of the batch is stored
referencing the new event's id; an empty pick batch leaves the events table
unchanged (`_associate_event` is only invoked on non-empty batches). -/
theorem c6_associate_one_event (picker : Picker) (rng : Entropy)
    (req : ProcessingRequest) (db : DB) (bufs : StationBuffers) (ix : Nat)
    (station : Station)
    (hfind : db.stations.find? (fun s => s.id = req.station_id) = some station) :
    ((buffer_and_pick picker rng req bufs ix).1 = [] →
      ∀ db' bufs' ix',
        handle_request picker rng req db bufs ix = .ok (db', bufs', ix') →
        db'.events = db.events) ∧
    ((buffer_and_pick picker rng req bufs ix).1 ≠ [] →
      ∀ db' bufs' ix',
        handle_request picker rng req db bufs ix = .ok (db', bufs', ix') →
        ∃ ev, db'.events = db.events ++ [ev] ∧
          ev.origin_time ∈ ((buffer_and_pick picker rng req bufs ix).1.map
            fun p => p.pick_time) ∧
          (∀ p ∈ (buffer_and_pick picker rng req bufs ix).1,
            ev.origin_time ≤ p.pick_time) ∧
          ev.preferred_station_id = some station.id ∧
          db'.picks = db.picks ++ ((buffer_and_pick picker rng req bufs ix).1.map
            fun p => { p with event_id := some ev.id })) := by
  constructor
  · intro hp db' bufs' ix' h
    simp only [handle_request] at h
    rw [if_pos hp, Except.ok.injEq, Prod.mk.injEq, Prod.mk.injEq] at h
    obtain ⟨hdb, -, -⟩ := h
    rw [← hdb]
    rfl
  · intro hp db' bufs' ix' h
    simp only [handle_request] at h
    rw [if_neg hp] at h
    cases hassoc : associate_event rng (buffer_and_pick picker rng req bufs ix).2.2.2
        db req.station_id (buffer_and_pick picker rng req bufs ix).1 with
    | error e => rw [hassoc] at h; exact absurd h (by simp)
    | ok tr =>
      obtain ⟨ev, db1, ix1⟩ := tr
      rw [hassoc, Except.ok.injEq, Prod.mk.injEq, Prod.mk.injEq] at h
      obtain ⟨hdb, -, -⟩ := h
      obtain ⟨hev, -, hpk, -, hmem, hle, station2, hfind2, hpref⟩ :=
        associate_event_ok _ _ _ _ _ _ _ _ hassoc
      refine ⟨ev, ?_, hmem, hle, ?_, ?_⟩
      · rw [← hdb]
        exact hev
      · rw [hfind] at hfind2
        injection hfind2 with hs
        rw [← hs] at hpref
        exact hpref
      · rw [← hdb]
        show db1.picks ++ _ = _
        rw [hpk]

/-- C8 witness: handling `exReqNoWin` (one buffered sample, zero picks) marks
waveform 2 processed. -/
theorem c8_witness :
    { exWave2 with processed := true } ∈ (update_waveform_processed exDb9 2).waveforms :=
  c8_waveform_processed exPicker exRng exReqNoWin exDb9 [] 0
    (update_waveform_processed exDb9 2)
    [(9, [("HNZ", { start_time := 0, sampling_rate := 100, samples := [1] })])] 0
    exNoWin_handle exWave2 (by simp [exDb9]) rfl

/-- C6 witness: handling `exReqNoWin` yields an empty pick batch, and the
events table is unchanged — no event is created for an empty batch. -/
theorem c6_witness :
    (update_waveform_processed exDb9 2).events = exDb9.events :=
  (c6_associate_one_event exPicker exRng exReqNoWin exDb9 [] 0 exStation9
      (by rfl)).1
    (by rw [exNoWin_bp])
    (update_waveform_processed exDb9 2)
    [(9, [("HNZ", { start_time := 0, sampling_rate := 100, samples := [1] })])] 0
    exNoWin_handle

/-- C3: starting from empty buffers, a sequence of single-channel requests at
a fixed rate slices exactly one window per accumulated whole window-length:
across the calls, the emitted windows are precisely the consecutive
window-length chunks of the concatenated sample stream, tagged with start
times advancing from the first request's recorded start time in exact
10-second steps; every window row is exactly the window length, and the
channel buffer retains exactly the remainder (total length mod window
length) after the last whole window. -/
theorem c3_window_accumulation (picker : Picker) (rng : Entropy) (sid : Nat)
    (c : String) (r : ℚ) (b : Nat)
    (hb : blockLenOf r = b) (hb1 : 1 ≤ b) (hr : r ≠ 0) (hc : c ≠ "")
    (req1 : ProcessingRequest) (rest : List ProcessingRequest)
    (hgood : ∀ req ∈ req1 :: rest, req.station_id = sid ∧ req.channel = some c ∧
      req.sampling_rate = some r ∧ ∃ s, req.samples = some s ∧ s ≠ []) (ix : Nat) :
    (runCalls picker rng (req1 :: rest) [] ix).2.1 =
      (List.range ((concatSamples (req1 :: rest)).length / b)).map
        (fun (k : ℕ) =>
          { start_time := req1.start_time.getD req1.received_at + 10 * (k : ℚ),
            matrix := padTo3 [((concatSamples (req1 :: rest)).drop (b * k)).take b] }) ∧
    (∀ ev ∈ (runCalls picker rng (req1 :: rest) [] ix).2.1, ∀ row ∈ ev.matrix,
      row.length = b) ∧
    getStation (runCalls picker rng (req1 :: rest) [] ix).2.2.1 sid =
      [(c, ⟨req1.start_time.getD req1.received_at
              + 10 * (((concatSamples (req1 :: rest)).length / b : ℕ) : ℚ), r,
            (concatSamples (req1 :: rest)).drop
              (b * ((concatSamples (req1 :: rest)).length / b))⟩)] ∧
    ((concatSamples (req1 :: rest)).drop
        (b * ((concatSamples (req1 :: rest)).length / b))).length =
      (concatSamples (req1 :: rest)).length % b := by
  obtain ⟨hsid, hchan, hrate, s1, hs1, hs1ne⟩ := hgood req1 (List.mem_cons_self _ _)
  have hgood' := fun q hq => hgood q (List.mem_cons_of_mem _ hq)
  have hcs : concatSamples (req1 :: rest) = s1 ++ concatSamples rest := by
    simp [concatSamples, hs1]
  have hfresh := buffer_and_pick_single_fresh picker rng req1 sid c r b hb hb1 hr hc
    hsid hchan hrate s1 hs1 hs1ne [] rfl ix
  have hrest := runCalls_single picker rng sid c r b hb hb1 hr hc rest hgood'
    _ s1 (req1.start_time.getD req1.received_at)
    ((buffer_and_pick picker rng req1 [] ix).2.2.2) hfresh.2
  have hD1le : s1.length / b ≤ (s1.length + (concatSamples rest).length) / b :=
    Nat.div_le_div_right (Nat.le_add_right _ _)
  have hevents : (runCalls picker rng (req1 :: rest) [] ix).2.1 =
      (List.range ((s1.length + (concatSamples rest).length) / b)).map
        (fun (k : ℕ) =>
          { start_time := req1.start_time.getD req1.received_at + 10 * (k : ℚ),
            matrix := padTo3 [((s1 ++ concatSamples rest).drop (b * k)).take b] }) := by
    simp only [runCalls]
    rw [hfresh.1, hrest.1,
      first_events_to_global b (req1.start_time.getD req1.received_at) s1 (concatSamples rest)]
    have happ := List.range'_append_1 0 (s1.length / b)
      ((s1.length + (concatSamples rest).length) / b - s1.length / b)
    rw [Nat.zero_add] at happ
    rw [← List.map_append, happ,
      show (s1.length + (concatSamples rest).length) / b - s1.length / b + s1.length / b
        = (s1.length + (concatSamples rest).length) / b from by omega,
      ← List.range_eq_range']
  refine ⟨?_, ?_, ?_, ?_⟩
  · rw [hcs, List.length_append]
    exact hevents
  · intro ev hev row hrow
    rw [hevents] at hev
    obtain ⟨k, hk, rfl⟩ := List.mem_map.mp hev
    rw [mem_padTo3_single _ _ hrow]
    refine chunk_len _ b k ?_
    rw [List.length_append]
    exact List.mem_range.mp hk
  · rw [hcs, List.length_append]
    simp only [runCalls]
    rw [getStation, hrest.2, Option.getD_some]
  · exact length_remainder _ b

/-- C3 witness: the scenario — three calls each delivering one third of a
10 s, 100 Hz window (333 + 333 + 334 samples) on one channel yield no window
after the first call, none after the second, and exactly one 1000-sample
window after the third, tagged with the buffer's recorded start time (100);
the buffer then retains the remainder (nothing beyond sample 1000). -/
theorem c3_witness :
    (runCalls exPicker exRng [exThird1] [] 0).2.1 = [] ∧
    (runCalls exPicker exRng [exThird1, exThird2] [] 0).2.1 = [] ∧
    (runCalls exPicker exRng [exThird1, exThird2, exThird3] [] 0).2.1 =
      [{ start_time := (100 : ℚ),
         matrix := padTo3 [(concatSamples [exThird1, exThird2, exThird3]).take 1000] }] ∧
    (∀ ev ∈ (runCalls exPicker exRng [exThird1, exThird2, exThird3] [] 0).2.1,
      ∀ row ∈ ev.matrix, row.length = 1000) ∧
    getStation (runCalls exPicker exRng [exThird1, exThird2, exThird3] [] 0).2.2.1 4 =
      [("BHZ", ⟨100 + 10 * ((1 : ℕ) : ℚ), 100,
        (concatSamples [exThird1, exThird2, exThird3]).drop 1000⟩)] := by
  have hrepne : ∀ (n : ℕ) (q : ℚ), n ≠ 0 → List.replicate n q ≠ [] := by
    intro n q hn hnil
    have := congrArg List.length hnil
    simp only [List.length_replicate, List.length_nil] at this
    exact hn this
  have hgood3 : ∀ req ∈ [exThird1, exThird2, exThird3], req.station_id = 4 ∧
      req.channel = some "BHZ" ∧ req.sampling_rate = some (100 : ℚ) ∧
      ∃ s, req.samples = some s ∧ s ≠ [] := by
    intro req hq
    rcases List.mem_cons.mp hq with h | hq
    · subst h; exact ⟨rfl, rfl, rfl, List.replicate 333 1, rfl, hrepne _ _ (by norm_num)⟩
    rcases List.mem_cons.mp hq with h | hq
    · subst h; exact ⟨rfl, rfl, rfl, List.replicate 333 2, rfl, hrepne _ _ (by norm_num)⟩
    rcases List.mem_cons.mp hq with h | hq
    · subst h; exact ⟨rfl, rfl, rfl, List.replicate 334 3, rfl, hrepne _ _ (by norm_num)⟩
    · simp at hq
  have hgood1 : ∀ req ∈ [exThird1], req.station_id = 4 ∧
      req.channel = some "BHZ" ∧ req.sampling_rate = some (100 : ℚ) ∧
      ∃ s, req.samples = some s ∧ s ≠ [] := by
    intro req hq
    rcases List.mem_cons.mp hq with h | hq
    · subst h; exact hgood3 exThird1 (List.mem_cons_self _ _)
    · simp at hq
  have hgood2 : ∀ req ∈ [exThird1, exThird2], req.station_id = 4 ∧
      req.channel = some "BHZ" ∧ req.sampling_rate = some (100 : ℚ) ∧
      ∃ s, req.samples = some s ∧ s ≠ [] := by
    intro req hq
    rcases List.mem_cons.mp hq with h | hq
    · subst h; exact hgood3 exThird1 (List.mem_cons_self _ _)
    rcases List.mem_cons.mp hq with h | hq
    · subst h; exact hgood3 exThird2 (List.mem_cons_of_mem _ (List.mem_cons_self _ _))
    · simp at hq
  have hcc1 : concatSamples [exThird1] = List.replicate 333 (1 : ℚ) := by
    show exThird1.samples.getD [] ++ ([] : List ℚ) = _
    rw [List.append_nil]
    rfl
  have hcc2 : concatSamples [exThird1, exThird2] =
      List.replicate 333 (1 : ℚ) ++ List.replicate 333 (2 : ℚ) := by
    show exThird1.samples.getD [] ++ (exThird2.samples.getD [] ++ ([] : List ℚ)) = _
    rw [List.append_nil]
    rfl
  have hcc3 : concatSamples [exThird1, exThird2, exThird3] =
      List.replicate 333 (1 : ℚ) ++ (List.replicate 333 (2 : ℚ) ++ List.replicate 334 (3 : ℚ)) := by
    show exThird1.samples.getD [] ++ (exThird2.samples.getD [] ++
      (exThird3.samples.getD [] ++ ([] : List ℚ))) = _
    rw [List.append_nil]
    rfl
  have hlen1 : (concatSamples [exThird1]).length = 333 := by
    rw [hcc1, List.length_replicate]
  have hlen2 : (concatSamples [exThird1, exThird2]).length = 666 := by
    rw [hcc2, List.length_append, List.length_replicate, List.length_replicate]
  have hlen3 : (concatSamples [exThird1, exThird2, exThird3]).length = 1000 := by
    rw [hcc3, List.length_append, List.length_append, List.length_replicate,
      List.length_replicate, List.length_replicate]
  have h1 := c3_window_accumulation exPicker exRng 4 "BHZ" 100 1000 blockLenOf_hundred
    (by norm_num) (by norm_num) (by decide) exThird1 [] hgood1 0
  have h2 := c3_window_accumulation exPicker exRng 4 "BHZ" 100 1000 blockLenOf_hundred
    (by norm_num) (by norm_num) (by decide) exThird1 [exThird2] hgood2 0
  have h3 := c3_window_accumulation exPicker exRng 4 "BHZ" 100 1000 blockLenOf_hundred
    (by norm_num) (by norm_num) (by decide) exThird1 [exThird2, exThird3] hgood3 0
  refine ⟨?_, ?_, ?_, ?_, ?_⟩
  · rw [h1.1, hlen1, show (333 : ℕ) / 1000 = 0 from by norm_num, List.range_zero,
      List.map_nil]
  · rw [h2.1, hlen2, show (666 : ℕ) / 1000 = 0 from by norm_num, List.range_zero,
      List.map_nil]
  · rw [h3.1, hlen3, show (1000 : ℕ) / 1000 = 1 from by norm_num,
      show List.range 1 = [0] from by decide,
      List.map_cons, List.map_nil, Nat.mul_zero, List.drop_zero]
    simp only [List.cons.injEq, SliceEvent.mk.injEq, and_true]
    show (100 : ℚ) + 10 * ((0 : ℕ) : ℚ) = 100
    norm_num
  · intro ev hev row hrow
    exact h3.2.1 ev hev row hrow
  · have hgs := h3.2.2.1
    rw [hlen3, show (1000 : ℕ) / 1000 = 1 from by norm_num] at hgs
    rw [hgs, show 1000 * 1 = 1000 from by norm_num]
    rfl

end SeismoX
